import Mathlib

/-!
Verification development for the object-store component of a content-addressed
Merkle-DAG store (js-ipfs `src/core/components/object.js`).

Modelling conventions:
- JavaScript `Buffer` values are `List Nat` (one entry per byte; the model does
  not need byte bounds, only determinism and equality).
- The callback style of the source is modelled by pure state-passing: an
  operation takes a `Store` and returns its result together with the store
  (error paths return the store unchanged, mirroring the source where the
  resolver write happens only after the edit callback succeeds).
- External collaborators that are not under the repository sources shown
  (ipld-dag-pb node model and binary codec, the IPLD resolver, the multihashes
  base-58 codec, the JSON text tokenizer) are modelled from the spec; each such
  definition carries a doc comment starting with `Modelled from the spec:`.
- Error kinds use the spec's names (section 7); the source's error message
  strings map to them as follows: `unkown encoding` to `UnknownEncoding`,
  `obj not recognized` to `UnrecognizedInput`, `failed to parse JSON` to
  `MalformedDocument`.
-/

set_option autoImplicit false

namespace IpfsObject

/-- Byte sequences (JavaScript Buffers) are lists of naturals. -/
abbrev Bytes := List Nat

/-- Error kinds of the spec (section 7), plus `MalformedBlock` for a binary
codec decode failure, which the spec distinguishes from `MalformedDocument`
(section 4.3). -/
inductive Err where
  | NotFound
  | VerificationFailed
  | MalformedIdentifier
  | MalformedDocument
  | MalformedBlock
  | UnknownEncoding
  | UnrecognizedInput
  | LinkNotFound
  | DuplicateOrInvalidLink
deriving DecidableEq

/-- A DAG link: named edge with a caller-declared target size and the target's
multihash digest bytes (ipld-dag-pb `DAGLink`; section 3 of the spec). -/
structure DAGLink where
  name : String
  size : Nat
  hash : Bytes
deriving DecidableEq

/-- A DAG node: payload bytes, ordered links, and the multihash of its own
serialized form (ipld-dag-pb `DAGNode`; section 3 of the spec). -/
structure DAGNode where
  data : Bytes
  links : List DAGLink
  multihash : Bytes
deriving DecidableEq

/-- Character codes of a string (model of `Buffer.from(string)`). -/
def strBytes (s : String) : Bytes := s.data.map Char.toNat

/-- String from character codes (inverse of `strBytes` on valid codes). -/
def strOfBytes (bs : Bytes) : String := String.mk (bs.map Char.ofNat)

/-- Modelled from the spec: stands in for the base-58 decoding of a multihash
string (`multihashes.fromB58String`, not under the shown sources). Only its
determinism matters to the claims, so the model decodes a string to its
character codes. -/
def fromB58String (s : String) : Bytes := strBytes s

/-- Modelled from the spec: stands in for the base-58 rendering of a multihash
(`multihashes.toB58String`); deterministic stand-in, inverse in spirit of
`fromB58String`. -/
def toB58String (bs : Bytes) : String := strOfBytes bs

/-- Modelled from the spec: stands in for the 256-bit content hash of
section 4.2. The spec assumes collision resistance (section 3), so the model
uses an injective digest function of the input bytes. -/
def hashBytes (bs : Bytes) : Bytes := bs.length :: bs

theorem hashBytes_inj {a b : Bytes} (h : hashBytes a = hashBytes b) : a = b := by
  simpa [hashBytes] using (List.cons.injEq _ _ _ _ ▸ h).2

/-- Modelled from the spec: binary wire form of one link — name, target
identifier bytes and declared size, length-prefixed (section 6, binary wire
format; the exact layout is owned by the external codec, only determinism and
self-consistency are required). -/
def serializeLink (l : DAGLink) : Bytes :=
  [l.name.length] ++ strBytes l.name ++ [l.size, l.hash.length] ++ l.hash

/-- Modelled from the spec: deterministic binary serialization of
(payload, ordered links) — `dagPB.util.serialize`, not under the shown
sources. -/
def serialize (data : Bytes) (links : List DAGLink) : Bytes :=
  [data.length] ++ data ++ [links.length] ++ (links.map serializeLink).flatten

/-- Split off the first `n` bytes when enough are available. -/
def splitAt? (n : Nat) (bs : Bytes) : Option (Bytes × Bytes) :=
  if bs.length < n then none else some (bs.take n, bs.drop n)

/-- Parse one serialized link, returning it with the remaining bytes. -/
def parseLink (bs : Bytes) : Option (DAGLink × Bytes) :=
  match bs with
  | nl :: rest =>
    match splitAt? nl rest with
    | none => none
    | some (nameBs, rest1) =>
      match rest1 with
      | sz :: hl :: rest2 =>
        match splitAt? hl rest2 with
        | none => none
        | some (hashBs, rest3) => some (⟨strOfBytes nameBs, sz, hashBs⟩, rest3)
      | _ => none
  | [] => none

/-- Parse a given number of serialized links. -/
def parseLinks : Nat → Bytes → Option (List DAGLink × Bytes)
  | 0, bs => some ([], bs)
  | k + 1, bs =>
    match parseLink bs with
    | none => none
    | some (l, rest) =>
      match parseLinks k rest with
      | none => none
      | some (ls, rest1) => some (l :: ls, rest1)

/-- Parse a whole serialized node into payload and links, requiring the input
to be consumed exactly. -/
def parseNode (bs : Bytes) : Option (Bytes × List DAGLink) :=
  match bs with
  | dl :: rest =>
    match splitAt? dl rest with
    | none => none
    | some (d, rest1) =>
      match rest1 with
      | ll :: rest2 =>
        match parseLinks ll rest2 with
        | none => none
        | some (ls, rest3) => if rest3.isEmpty then some (d, ls) else none
      | [] => none
  | [] => none

/-- Modelled from the spec: binary deserialization (`dagPB.util.deserialize`,
not under the shown sources). As in the real codec, the produced node's
multihash is the hash of the serialized buffer it was decoded from. -/
def deserialize (bs : Bytes) : Option DAGNode :=
  (parseNode bs).map fun p => ⟨p.1, p.2, hashBytes bs⟩

/-- Modelled from the spec: `DAGNode.create` (section 4.2) — builds a node
whose identifier is the hash of its own serialized form. -/
def DAGNode.create (data : Bytes) (links : List DAGLink) : DAGNode :=
  ⟨data, links, hashBytes (serialize data links)⟩

/-- Modelled from the spec: `removeLink` (section 4.2) — removes all links
matching the name, failing with `LinkNotFound` when no link has that name. -/
def DAGNode.rmLink (n : DAGNode) (nm : String) : Except Err DAGNode :=
  if n.links.any (fun l => l.name == nm) then
    .ok (DAGNode.create n.data (n.links.filter (fun l => !(l.name == nm))))
  else .error .LinkNotFound

/-- Modelled from the spec: `addLink` (section 4.2) — preserves existing link
order and appends the new link. -/
def DAGNode.addLink (n : DAGNode) (l : DAGLink) : Except Err DAGNode :=
  .ok (DAGNode.create n.data (n.links ++ [l]))

/-- The block store state: association list from identifier digest to stored
block bytes, newest binding first. -/
abbrev Store := List (Bytes × Bytes)

/-- Look up the newest block stored under an identifier. -/
def Store.find : Store → Bytes → Option Bytes
  | [], _ => none
  | (k, v) :: rest, id => if k = id then some v else Store.find rest id

/-- Modelled from the spec: `self._ipldResolver.put({node, cid})` — serializes
the node and persists the block under the given identifier (sections 4.4 and
4.5); the source always passes `new CID(node.multihash)` as the key. -/
def ipldPut (s : Store) (n : DAGNode) : Store :=
  (n.multihash, serialize n.data n.links) :: s

/-- Modelled from the spec: `self._ipldResolver.get(cid)` — fetches the block,
fails with `NotFound` when absent, verifies that the fetched bytes hash to the
requested identifier (failing with `VerificationFailed` otherwise, never
returning the altered node), and decodes the node (sections 4.4 and 7). -/
def ipldGet (s : Store) (id : Bytes) : Except Err DAGNode :=
  match Store.find s id with
  | none => .error .NotFound
  | some bytes =>
    if hashBytes bytes = id then
      match deserialize bytes with
      | some n => .ok n
      | none => .error .MalformedBlock
    else .error .VerificationFailed

/-- The identifier argument of `object.get`: a raw digest Buffer or an encoded
string (`normalizeMultihash` branches on this shape). -/
inductive MhInput where
  | raw (bytes : Bytes)
  | str (s : String)

/-- The source's `normalizeMultihash` composed with the CID construction: a
base58-tagged string is passed through and decoded by the CID constructor; any
other string is converted to bytes per the declared encoding (modelled as
character codes); a Buffer is accepted unchanged. The `unsupported multihash`
throw of the source concerns arguments that are neither, which the input type
excludes. -/
def normalizeMultihash (m : MhInput) (enc : Option String) : Bytes :=
  match m with
  | .str s => if enc = some "base58" then fromB58String s else strBytes s
  | .raw b => b

/-- The source's `object.get`: normalize the identifier, build the CID, fetch
through the resolver. -/
def objectGet (s : Store) (m : MhInput) (enc : Option String) : Except Err DAGNode :=
  ipldGet s (normalizeMultihash m enc)

/-- One link entry of a parsed JSON document: each wire field may be absent.
The upper/lower-case pairs model the canonical names and their legacy aliases
read by `parseJSONBuffer` (source lines 43-49). -/
structure JSONLinkDoc where
  Name : Option String
  name : Option String
  Size : Option Nat
  size : Option Nat
  Hash : Option String
  hash : Option String
  multihash : Option String
deriving DecidableEq

/-- A parsed JSON document: `Data` as a byte sequence (absent when the wire
document has no usable `Data`, in which case `new Buffer(parsed.Data)` throws),
and an optional `Links` array (`parsed.Links || []`). -/
structure JSONDoc where
  Data : Option Bytes
  Links : Option (List JSONLinkDoc)
deriving DecidableEq

/-- JavaScript `a || b` on string-valued fields: the empty string is falsy. -/
def orStr (a b : Option String) : Option String :=
  match a with
  | some s => if s = "" then b else some s
  | none => b

/-- JavaScript `a || b` on number-valued fields: zero is falsy. -/
def orNat (a b : Option Nat) : Option Nat :=
  match a with
  | some n => if n = 0 then b else some n
  | none => b

/-- The link construction of `parseJSONBuffer`:
`new DAGLink(link.Name || link.name, link.Size || link.size,
mh.fromB58String(link.Hash || link.hash || link.multihash))`. When the hash
expression is absent, the base-58 decode throws inside the `try`, surfacing as
`MalformedDocument`. Absent name/size are taken as empty/zero by the `DAGLink`
constructor, modelled from the spec's data model (section 3: a link's name is
a string, its size an unsigned integer). -/
def linkFromJSON (l : JSONLinkDoc) : Except Err DAGLink :=
  match orStr (orStr l.Hash l.hash) l.multihash with
  | none => .error .MalformedDocument
  | some h =>
    .ok { name := (orStr l.Name l.name).getD "",
          size := (orNat l.Size l.size).getD 0,
          hash := fromB58String h }

/-- Build every link of the document, propagating the first failure. -/
def linksFromDoc : List JSONLinkDoc → Except Err (List DAGLink)
  | [] => .ok []
  | l :: rest =>
    match linkFromJSON l with
    | .error e => .error e
    | .ok dl =>
      match linksFromDoc rest with
      | .error e => .error e
      | .ok dls => .ok (dl :: dls)

/-- The document-level body of `parseJSONBuffer` (source lines 43-55): map the
links array (`parsed.Links || []`) through the alias-resolving link builder,
take the payload from `Data`, and build the node. -/
def docToNode (doc : JSONDoc) : Except Err DAGNode :=
  match linksFromDoc (doc.Links.getD []) with
  | .error e => .error e
  | .ok ls =>
    match doc.Data with
    | none => .error .MalformedDocument
    | some d => .ok (DAGNode.create d ls)

/-- Decode an optional string field of the length-prefixed document rendering. -/
def decodeOptStr (bs : Bytes) : Option (Option String × Bytes) :=
  match bs with
  | 0 :: rest => some (none, rest)
  | 1 :: n :: rest => (splitAt? n rest).map fun p => (some (strOfBytes p.1), p.2)
  | _ => none

/-- Decode an optional number field of the length-prefixed document rendering. -/
def decodeOptNat (bs : Bytes) : Option (Option Nat × Bytes) :=
  match bs with
  | 0 :: rest => some (none, rest)
  | 1 :: n :: rest => some (some n, rest)
  | _ => none

/-- Decode an optional byte-sequence field of the document rendering. -/
def decodeOptBytes (bs : Bytes) : Option (Option Bytes × Bytes) :=
  match bs with
  | 0 :: rest => some (none, rest)
  | 1 :: n :: rest => (splitAt? n rest).map fun p => (some p.1, p.2)
  | _ => none

/-- Decode one link entry of the document rendering. -/
def decodeLinkDoc (bs : Bytes) : Option (JSONLinkDoc × Bytes) :=
  match decodeOptStr bs with
  | none => none
  | some (fN, bs1) =>
    match decodeOptStr bs1 with
    | none => none
    | some (fn, bs2) =>
      match decodeOptNat bs2 with
      | none => none
      | some (fS, bs3) =>
        match decodeOptNat bs3 with
        | none => none
        | some (fs, bs4) =>
          match decodeOptStr bs4 with
          | none => none
          | some (fH, bs5) =>
            match decodeOptStr bs5 with
            | none => none
            | some (fh, bs6) =>
              match decodeOptStr bs6 with
              | none => none
              | some (fm, bs7) => some (⟨fN, fn, fS, fs, fH, fh, fm⟩, bs7)

/-- Decode a counted sequence of link entries. -/
def decodeLinkDocs : Nat → Bytes → Option (List JSONLinkDoc × Bytes)
  | 0, bs => some ([], bs)
  | k + 1, bs =>
    match decodeLinkDoc bs with
    | none => none
    | some (l, rest) =>
      match decodeLinkDocs k rest with
      | none => none
      | some (ls, rest1) => some (l :: ls, rest1)

/-- Modelled from the spec: stands in for `JSON.parse` over the document bytes
(a JavaScript builtin, not part of the repository sources); it reads a
length-prefixed rendering of the document model of section 6. The behavior
visible in the shown sources — field aliasing and link construction — lives in
`docToNode`. -/
def jsonParse (bs : Bytes) : Option JSONDoc :=
  match decodeOptBytes bs with
  | none => none
  | some (d, bs1) =>
    match bs1 with
    | 0 :: rest => if rest.isEmpty then some ⟨d, none⟩ else none
    | 1 :: n :: rest =>
      match decodeLinkDocs n rest with
      | none => none
      | some (ls, rest1) => if rest1.isEmpty then some ⟨d, some ls⟩ else none
    | _ => none

/-- The source's `parseJSONBuffer`: tokenize the document, then build the node;
any failure inside the `try` surfaces as `MalformedDocument` (the source's
`failed to parse JSON` error). -/
def parseJSONBuffer (buf : Bytes) : Except Err DAGNode :=
  match jsonParse buf with
  | none => .error .MalformedDocument
  | some doc => docToNode doc

/-- The source's `parseProtoBuffer`: delegate to the binary codec. -/
def parseProtoBuffer (buf : Bytes) : Except Err DAGNode :=
  match deserialize buf with
  | some n => .ok n
  | none => .error .MalformedBlock

/-- The source's `parseBuffer`: dispatch on the encoding name, failing with
`UnknownEncoding` (the `unkown encoding` error) on any other name. -/
def parseBuffer (buf : Bytes) (encoding : String) : Except Err DAGNode :=
  match encoding with
  | "json" => parseJSONBuffer buf
  | "protobuf" => parseProtoBuffer buf
  | _ => .error .UnknownEncoding

/-- The argument shapes `object.put` duck-types over: a Buffer, something with
a `multihash` field (already a DAG node), another object carrying `Data` and
`Links`, or anything else (the `obj not recognized` branch). -/
inductive PutInput where
  | buf (bytes : Bytes)
  | node (n : DAGNode)
  | obj (Data : Bytes) (Links : List DAGLink)
  | other

/-- The source's `next()` inside `object.put`: persist the node through the
resolver, then re-fetch it by its own multihash (`self.object.get`) and return
that fetched value. -/
def putNext (s : Store) (node : DAGNode) : Except Err DAGNode × Store :=
  let s1 := ipldPut s node
  (objectGet s1 (.raw node.multihash) none, s1)

/-- The source's `object.put`: branch over the input shape (a Buffer is parsed
when a truthy encoding is given, otherwise wrapped by `DAGNode.create`; a node
is taken as is; a generic object contributes `Data` and `Links`; anything else
fails with `UnrecognizedInput`), then persist and re-fetch. An empty encoding
string is falsy in `if (encoding)` and is treated as no encoding. -/
def objectPut (obj : PutInput) (enc : Option String) (s : Store) :
    Except Err DAGNode × Store :=
  match obj with
  | .buf bytes =>
    match enc with
    | some e =>
      if e = "" then putNext s (DAGNode.create bytes [])
      else
        match parseBuffer bytes e with
        | .error err => (.error err, s)
        | .ok node => putNext s node
    | none => putNext s (DAGNode.create bytes [])
  | .node n => putNext s n
  | .obj d ls => putNext s (DAGNode.create d ls)
  | .other => (.error .UnrecognizedInput, s)

/-- The source's `object.new`: create the empty node (empty payload, no links),
persist it through the resolver with one write, and return it. -/
def objectNew (s : Store) : Except Err DAGNode × Store :=
  let node := DAGNode.create [] []
  (.ok node, ipldPut s node)

/-- The six-field record returned by `object.stat`, with the source's field
names; the spec's names map as `identifier` = `Hash`, `linkCount` = `NumLinks`,
`blockSizeBytes` = `BlockSize`, `linksSizeBytes` = `LinksSize`,
`dataSizeBytes` = `DataSize`, `cumulativeSizeBytes` = `CumulativeSize`. -/
structure StatResult where
  Hash : String
  NumLinks : Nat
  BlockSize : Nat
  LinksSize : Nat
  DataSize : Nat
  CumulativeSize : Nat
deriving DecidableEq

/-- The source's `object.stat`: fetch the node, re-serialize it, and report the
six size/shape fields. -/
def statOp (s : Store) (m : MhInput) (enc : Option String) :
    Except Err StatResult :=
  match objectGet s m enc with
  | .error e => .error e
  | .ok node =>
    let serialized := serialize node.data node.links
    let blockSize := serialized.length
    let linkLength := node.links.foldl (fun a l => a + l.size) 0
    .ok { Hash := toB58String node.multihash,
          NumLinks := node.links.length,
          BlockSize := blockSize,
          LinksSize := blockSize - node.data.length,
          DataSize := node.data.length,
          CumulativeSize := blockSize + linkLength }

/-- The source's `editAndSave`: fetch the current node, apply the edit, and —
only when the edit succeeded — persist the candidate under its own new
identifier, returning the edited node. Error paths perform no write, so the
store is returned unchanged. -/
def editAndSave (edit : DAGNode → Except Err DAGNode) (s : Store) (m : MhInput)
    (enc : Option String) : Except Err DAGNode × Store :=
  match objectGet s m enc with
  | .error e => (.error e, s)
  | .ok node =>
    match edit node with
    | .error e => (.error e, s)
    | .ok node1 => (.ok node1, ipldPut s node1)

/-- The link argument of `object.patch.rmLink`: either a full `DAGLink` value
or a plain name string. -/
inductive LinkRef where
  | link (l : DAGLink)
  | name (nm : String)

/-- The source's `object.patch.rmLink`: a `DAGLink` argument is reduced to its
`_name` before `DAGNode.rmLink` runs. -/
def patchRmLink (s : Store) (m : MhInput) (ref : LinkRef) (enc : Option String) :
    Except Err DAGNode × Store :=
  editAndSave
    (fun node =>
      DAGNode.rmLink node (match ref with | .link l => l.name | .name nm => nm))
    s m enc

/-- The source's `object.patch.addLink`. -/
def patchAddLink (s : Store) (m : MhInput) (l : DAGLink) (enc : Option String) :
    Except Err DAGNode × Store :=
  editAndSave (fun node => DAGNode.addLink node l) s m enc

/-- The source's `object.patch.appendData`: the new payload is
`Buffer.concat([node.data, data])`, the links are kept. -/
def patchAppendData (s : Store) (m : MhInput) (data : Bytes) (enc : Option String) :
    Except Err DAGNode × Store :=
  editAndSave (fun node => .ok (DAGNode.create (node.data ++ data) node.links)) s m enc

/-- The source's `object.patch.setData`: the payload is replaced, the links are
kept. -/
def patchSetData (s : Store) (m : MhInput) (data : Bytes) (enc : Option String) :
    Except Err DAGNode × Store :=
  editAndSave (fun node => .ok (DAGNode.create data node.links)) s m enc

/-- Move each canonical field value of a link entry to its lower-case alias:
`Name` to `name`, `Size` to `size`, and `Hash` to `hash`, or to `multihash`
when `useMulti` is set. -/
def lowerLink (useMulti : Bool) (l : JSONLinkDoc) : JSONLinkDoc :=
  { Name := none, name := l.Name,
    Size := none, size := l.Size,
    Hash := none,
    hash := if useMulti then none else l.Hash,
    multihash := if useMulti then l.Hash else none }

/-- Rewrite a whole document to carry its link fields under the lower-case
aliases. -/
def lowerDoc (useMulti : Bool) (doc : JSONDoc) : JSONDoc :=
  { Data := doc.Data,
    Links := doc.Links.map (fun ls => ls.map (lowerLink useMulti)) }

/-- A link entry whose hash is the empty string under the canonical name. -/
def emptyHashLink : JSONLinkDoc := ⟨none, none, none, none, some "", none, none⟩

/-- The same entry carrying the empty-string hash under `multihash`. -/
def emptyMultihashLink : JSONLinkDoc := ⟨none, none, none, none, none, none, some ""⟩

/-- A well-formed link entry under canonical field names, used by witnesses. -/
def aliasDocLink : JSONLinkDoc := ⟨some "n", none, some 4, none, some "Qm", none, none⟩

/-- A well-formed document under canonical field names, used by witnesses. -/
def aliasDoc : JSONDoc := ⟨some [1], some [aliasDocLink]⟩

/-- Concrete node used by witnesses: three payload bytes and one link of
declared size 10 (the scenario of spec section 8). -/
def wNode3 : DAGNode := DAGNode.create [1, 2, 3] [⟨"a", 10, [7]⟩]

/-- Concrete store holding `wNode3`. -/
def wStore3 : Store := ipldPut [] wNode3

/-- The node `wNode3` grows into when two bytes are appended. -/
def wNode5 : DAGNode := DAGNode.create [1, 2, 3, 4, 5] [⟨"a", 10, [7]⟩]

/-- Concrete single-payload-byte node used by the setData witness. -/
def wNode1 : DAGNode := DAGNode.create [1] []

/-- Concrete store holding `wNode1`. -/
def wStore1 : Store := ipldPut [] wNode1

/-- The node `wNode1`'s payload is replaced with by the setData witness. -/
def wNode9 : DAGNode := DAGNode.create [9] []

theorem deserialize_multihash {bs : Bytes} {n : DAGNode}
    (h : deserialize bs = some n) : n.multihash = hashBytes bs := by
  unfold deserialize at h
  cases hp : parseNode bs with
  | none => rw [hp] at h; simp at h
  | some p => rw [hp] at h; simp at h; rw [← h]

theorem ipldGet_ok_multihash {s : Store} {id : Bytes} {m : DAGNode}
    (h : ipldGet s id = .ok m) : m.multihash = id := by
  unfold ipldGet at h
  split at h
  · exact absurd h (by simp)
  · rename_i bytes hf
    split at h
    · rename_i hh
      split at h
      · rename_i n hd
        have hnm : n = m := by simpa using h
        rw [← hnm, deserialize_multihash hd, hh]
      · exact absurd h (by simp)
    · exact absurd h (by simp)

theorem foldl_size_sum (ls : List DAGLink) (a : Nat) :
    ls.foldl (fun acc l => acc + l.size) a = a + (ls.map DAGLink.size).sum := by
  induction ls generalizing a with
  | nil => simp
  | cons l rest ih => simp [ih, Nat.add_assoc]

/-- C1: for every identifier whose stored block bytes no longer hash to that
identifier, `object.get` fails with `VerificationFailed` and never returns the
altered node as a valid result. -/
theorem get_corrupted_block_fails (s : Store) (id bytes : Bytes)
    (hfind : Store.find s id = some bytes) (hne : hashBytes bytes ≠ id) :
    objectGet s (.raw id) none = .error .VerificationFailed := by
  simp [objectGet, normalizeMultihash, ipldGet, hfind, hne]

theorem get_corrupted_block_fails_witness :
    Store.find [([0], [5])] [0] = some [5] ∧ hashBytes [5] ≠ [0] ∧
      objectGet [([0], [5])] (.raw [0]) none = .error .VerificationFailed :=
  ⟨rfl, by decide, get_corrupted_block_fails _ _ _ rfl (by decide)⟩

/-- C3: for every stored node, `object.stat` returns exactly the six fields of
`StatResult`, with `BlockSize` the length of the node's serialized form,
`LinksSize` equal to `BlockSize` minus the payload length, `DataSize` the
payload length, `NumLinks` the number of links, and `CumulativeSize` equal to
`BlockSize` plus the sum of the links' declared (caller-supplied, unverified)
sizes. -/
theorem stat_reports_sizes (s : Store) (m : MhInput) (enc : Option String)
    (n : DAGNode) (hget : objectGet s m enc = .ok n) :
    statOp s m enc = .ok
      { Hash := toB58String n.multihash,
        NumLinks := n.links.length,
        BlockSize := (serialize n.data n.links).length,
        LinksSize := (serialize n.data n.links).length - n.data.length,
        DataSize := n.data.length,
        CumulativeSize :=
          (serialize n.data n.links).length + (n.links.map DAGLink.size).sum } := by
  simp [statOp, hget, foldl_size_sum]

theorem stat_reports_sizes_witness :
    objectGet wStore3 (.raw wNode3.multihash) none = .ok wNode3 ∧
      statOp wStore3 (.raw wNode3.multihash) none = .ok
        { Hash := toB58String wNode3.multihash,
          NumLinks := wNode3.links.length,
          BlockSize := (serialize wNode3.data wNode3.links).length,
          LinksSize := (serialize wNode3.data wNode3.links).length - wNode3.data.length,
          DataSize := wNode3.data.length,
          CumulativeSize :=
            (serialize wNode3.data wNode3.links).length
              + (wNode3.links.map DAGLink.size).sum } :=
  ⟨rfl, stat_reports_sizes _ _ _ _ rfl⟩

/-- C4: removing a link by a name that matches no link of the stored node fails
with `LinkNotFound` — an explicit failure, not a silent no-op — and writes no
new block: the store, and with it the block stored for the original identifier,
is returned unchanged. -/
theorem rmLink_missing_name_fails (s : Store) (m : MhInput) (enc : Option String)
    (x : String) (n : DAGNode) (hget : objectGet s m enc = .ok n)
    (hmiss : ∀ l ∈ n.links, l.name ≠ x) :
    patchRmLink s m (.name x) enc = (.error .LinkNotFound, s) := by
  have hany : n.links.any (fun l => l.name == x) = false := by
    rw [Bool.eq_false_iff]
    intro hc
    rw [List.any_eq_true] at hc
    obtain ⟨l, hl, hb⟩ := hc
    exact hmiss l hl (by simpa using hb)
  simp [patchRmLink, editAndSave, hget, DAGNode.rmLink, hany]

theorem rmLink_missing_name_fails_witness :
    objectGet wStore3 (.raw wNode3.multihash) none = .ok wNode3 ∧
      (∀ l ∈ wNode3.links, l.name ≠ "x") ∧
      patchRmLink wStore3 (.raw wNode3.multihash) (.name "x") none =
        (.error .LinkNotFound, wStore3) :=
  ⟨rfl, by decide, rmLink_missing_name_fails _ _ _ _ _ rfl (by decide)⟩

/-- C5: appending bytes to a stored node produces a node whose payload is the
existing payload followed by the given bytes, with the link list unchanged; the
new node is persisted under its own identifier. -/
theorem appendData_concatenates (s : Store) (m : MhInput) (enc : Option String)
    (b : Bytes) (n : DAGNode) (hget : objectGet s m enc = .ok n) :
    ∃ nd, patchAppendData s m b enc = (.ok nd, ipldPut s nd) ∧
      nd.data = n.data ++ b ∧ nd.links = n.links := by
  refine ⟨DAGNode.create (n.data ++ b) n.links, ?_, rfl, rfl⟩
  simp [patchAppendData, editAndSave, hget]

/-- Witness for C5, realizing the scenario of spec section 8: a node with a
3-byte payload and one link of declared size 10, appended with 2 more bytes,
stats with `DataSize` 5, `BlockSize` 12 and `CumulativeSize` 12 + 10 = 22. -/
theorem appendData_concatenates_witness :
    objectGet wStore3 (.raw wNode3.multihash) none = .ok wNode3 ∧
      (∃ nd, patchAppendData wStore3 (.raw wNode3.multihash) [4, 5] none =
          (.ok nd, ipldPut wStore3 nd) ∧
        nd.data = wNode3.data ++ [4, 5] ∧ nd.links = wNode3.links) ∧
      (statOp (ipldPut wStore3 wNode5) (.raw wNode5.multihash) none).toOption.map
          (fun st => (st.DataSize, st.BlockSize, st.CumulativeSize)) =
        some (5, 12, 22) :=
  ⟨rfl, appendData_concatenates _ _ _ _ _ rfl, rfl⟩

/-- C9: `object.new` creates a node with empty payload and no links, persists
it with exactly one block write (one new binding prepended to the store), and
returns the created node, whose identifier is the hash of the canonical
empty-node encoding. -/
theorem new_creates_persisted_empty_node (s : Store) :
    objectNew s =
        (.ok (DAGNode.create [] []),
          ((DAGNode.create [] []).multihash, serialize [] []) :: s) ∧
      (DAGNode.create [] []).data = [] ∧
      (DAGNode.create [] []).links = [] ∧
      (DAGNode.create [] []).multihash = hashBytes (serialize [] []) :=
  ⟨rfl, rfl, rfl, rfl⟩

/-- C10: `patch.rmLink` given a full `DAGLink` value behaves identically to the
same call given that link's name string: the link value is reduced to its name
before removal. -/
theorem rmLink_link_ref_same_as_name (s : Store) (m : MhInput) (l : DAGLink)
    (enc : Option String) :
    patchRmLink s m (.link l) enc = patchRmLink s m (.name l.name) enc := rfl

theorem Store.find_cons (k v : Bytes) (s : Store) (id : Bytes) :
    Store.find ((k, v) :: s) id = if k = id then some v else Store.find s id := rfl

theorem putNext_ok {s : Store} {node m : DAGNode} {s1 : Store}
    (h : putNext s node = (.ok m, s1)) :
    objectGet s1 (.raw m.multihash) none = .ok m := by
  unfold putNext at h
  rw [Prod.mk.injEq] at h
  obtain ⟨h1, h2⟩ := h
  have hm : m.multihash = node.multihash := ipldGet_ok_multihash h1
  subst h2
  rw [show MhInput.raw m.multihash = MhInput.raw node.multihash by rw [hm]]
  exact h1

/-- C2: whenever `object.put` succeeds — on any accepted input shape — the node
it returns was re-fetched by its identifier from the updated store, so fetching
that identifier again returns exactly the same node. -/
theorem put_returns_refetched_node (input : PutInput) (enc : Option String)
    (s s1 : Store) (m : DAGNode) (h : objectPut input enc s = (.ok m, s1)) :
    objectGet s1 (.raw m.multihash) none = .ok m := by
  cases input with
  | buf bytes =>
    simp only [objectPut] at h
    cases enc with
    | none => exact putNext_ok h
    | some e =>
      simp only at h
      split at h
      · exact putNext_ok h
      · split at h
        · simp at h
        · exact putNext_ok h
  | node n =>
    simp only [objectPut] at h
    exact putNext_ok h
  | obj d ls =>
    simp only [objectPut] at h
    exact putNext_ok h
  | other => simp [objectPut] at h

theorem put_returns_refetched_node_witness :
    objectPut (.buf [1, 2]) none [] =
        (.ok (DAGNode.create [1, 2] []), ipldPut [] (DAGNode.create [1, 2] [])) ∧
      objectGet (ipldPut [] (DAGNode.create [1, 2] []))
          (.raw (DAGNode.create [1, 2] []).multihash) none =
        .ok (DAGNode.create [1, 2] []) :=
  ⟨rfl,
   put_returns_refetched_node (.buf [1, 2]) none []
     (ipldPut [] (DAGNode.create [1, 2] [])) (DAGNode.create [1, 2] []) rfl⟩

theorem ipldGet_put_preserve {s : Store} {id : Bytes} {n : DAGNode}
    (node : DAGNode) (hget : ipldGet s id = .ok n)
    (hwf : hashBytes (serialize node.data node.links) = node.multihash) :
    ipldGet (ipldPut s node) id = .ok n := by
  by_cases hid : node.multihash = id
  · unfold ipldGet at hget
    split at hget
    · exact absurd hget (by simp)
    · rename_i bytes hf
      split at hget
      · rename_i hh
        have hbeq : serialize node.data node.links = bytes :=
          hashBytes_inj (by rw [hwf, hid, ← hh])
        show ipldGet ((node.multihash, serialize node.data node.links) :: s) id = .ok n
        unfold ipldGet
        rw [Store.find_cons, if_pos hid, hbeq]
        show (if hashBytes bytes = id then
            match deserialize bytes with
            | some nd => Except.ok nd
            | none => Except.error Err.MalformedBlock
          else Except.error Err.VerificationFailed) = Except.ok n
        rw [if_pos hh]
        exact hget
      · exact absurd hget (by simp)
  · show ipldGet ((node.multihash, serialize node.data node.links) :: s) id = .ok n
    unfold ipldGet
    rw [Store.find_cons, if_neg hid]
    exact hget

/-- C7: running `patch.setData` on the same identifier with the same bytes
twice — the second run against the store the first run produced — yields the
same resulting identifier both times: the edit-and-save pipeline is
deterministic in its inputs. -/
theorem setData_twice_same_identifier (s : Store) (id b : Bytes)
    (n m1 m2 : DAGNode) (s1 s2 : Store)
    (hget : objectGet s (.raw id) none = .ok n)
    (h1 : patchSetData s (.raw id) b none = (.ok m1, s1))
    (h2 : patchSetData s1 (.raw id) b none = (.ok m2, s2)) :
    m2.multihash = m1.multihash := by
  simp only [patchSetData, editAndSave, hget] at h1
  rw [Prod.mk.injEq] at h1
  obtain ⟨h1a, h1b⟩ := h1
  have hm1 : DAGNode.create b n.links = m1 := by simpa using h1a
  have hget1 : objectGet s1 (.raw id) none = .ok n := by
    rw [← h1b]
    exact ipldGet_put_preserve (DAGNode.create b n.links) hget rfl
  simp only [patchSetData, editAndSave, hget1] at h2
  rw [Prod.mk.injEq] at h2
  obtain ⟨h2a, h2b⟩ := h2
  have hm2 : DAGNode.create b n.links = m2 := by simpa using h2a
  rw [← hm1, ← hm2]

theorem setData_twice_same_identifier_witness :
    objectGet wStore1 (.raw wNode1.multihash) none = .ok wNode1 ∧
      patchSetData wStore1 (.raw wNode1.multihash) [9] none =
        (.ok wNode9, ipldPut wStore1 wNode9) ∧
      patchSetData (ipldPut wStore1 wNode9) (.raw wNode1.multihash) [9] none =
        (.ok wNode9, ipldPut (ipldPut wStore1 wNode9) wNode9) ∧
      wNode9.multihash = wNode9.multihash :=
  ⟨rfl, rfl, rfl,
   setData_twice_same_identifier wStore1 wNode1.multihash [9] wNode1 wNode9
     wNode9 (ipldPut wStore1 wNode9) (ipldPut (ipldPut wStore1 wNode9) wNode9)
     rfl rfl rfl⟩

/-- Counterexample to C8 as stated: the empty string is an encoding name that
is neither the JSON nor the binary codec, yet `object.put` does not fail with
`UnknownEncoding` — `if (encoding)` treats the empty string as falsy and stores
the bytes as a plain node. -/
theorem put_empty_encoding_counterexample :
    ("" : String) ≠ "json" ∧ ("" : String) ≠ "protobuf" ∧
      (objectPut (.buf []) (some "") []).1 = .ok (DAGNode.create [] []) :=
  ⟨by decide, by decide, rfl⟩

/-- C8 amended: `object.put` fails with `UnrecognizedInput` on any argument
that is none of the accepted shapes, and with `UnknownEncoding` on raw bytes
tagged with a non-empty encoding name that is neither the JSON nor the binary
codec; an empty-string encoding tag is falsy and is treated as absent. -/
theorem put_distinct_error_kinds (s : Store) :
    (∀ enc, objectPut .other enc s = (.error .UnrecognizedInput, s)) ∧
      (∀ bytes e, e ≠ "" → e ≠ "json" → e ≠ "protobuf" →
        objectPut (.buf bytes) (some e) s = (.error .UnknownEncoding, s)) := by
  constructor
  · intro enc; rfl
  · intro bytes e h0 hj hp
    have hpb : parseBuffer bytes e = .error .UnknownEncoding := by
      unfold parseBuffer
      split
      · exact absurd rfl hj
      · exact absurd rfl hp
      · rfl
    simp only [objectPut, if_neg h0, hpb]

theorem put_distinct_error_kinds_witness :
    ("cbor" : String) ≠ "" ∧ ("cbor" : String) ≠ "json" ∧
      ("cbor" : String) ≠ "protobuf" ∧
      objectPut .other none [] = (.error .UnrecognizedInput, []) ∧
      objectPut (.buf [1]) (some "cbor") [] = (.error .UnknownEncoding, []) :=
  ⟨by decide, by decide, by decide,
   (put_distinct_error_kinds []).1 none,
   (put_distinct_error_kinds []).2 [1] "cbor" (by decide) (by decide) (by decide)⟩

theorem orStr_move (v : Option String) :
    (orStr none v).getD "" = (orStr v none).getD "" := by
  cases v with
  | none => rfl
  | some x => by_cases hx : x = "" <;> simp [orStr, hx]

theorem orNat_move (v : Option Nat) :
    (orNat none v).getD 0 = (orNat v none).getD 0 := by
  cases v with
  | none => rfl
  | some x => by_cases hx : x = 0 <;> simp [orNat, hx]

theorem linkFromJSON_lower (useMulti : Bool) (l : JSONLinkDoc)
    (hh : l.hash = none) (hm : l.multihash = none) (hn : l.name = none)
    (hs : l.size = none) (hH : l.Hash ≠ some "") :
    linkFromJSON (lowerLink useMulti l) = linkFromJSON l := by
  obtain ⟨fN, fn, fS, fs, fH, fh, fm⟩ := l
  simp only at hh hm hn hs hH
  subst hh; subst hm; subst hn; subst hs
  cases hHv : fH with
  | none => cases useMulti <;> simp [lowerLink, linkFromJSON, orStr, orStr_move, orNat_move]
  | some v =>
    have hne : v ≠ "" := by
      intro hv
      exact hH (by rw [hHv, hv])
    cases useMulti <;>
      simp [lowerLink, linkFromJSON, orStr, hne, orStr_move, orNat_move] <;>
      (cases fN with
        | none => rfl
        | some x => by_cases hx : x = "" <;> simp [hx])

theorem linksFromDoc_lower (useMulti : Bool) (ls : List JSONLinkDoc)
    (h : ∀ l ∈ ls, l.hash = none ∧ l.multihash = none ∧ l.name = none ∧
      l.size = none ∧ l.Hash ≠ some "") :
    linksFromDoc (ls.map (lowerLink useMulti)) = linksFromDoc ls := by
  induction ls with
  | nil => rfl
  | cons l rest ih =>
    obtain ⟨h1, h2, h3, h4, h5⟩ := h l (by simp)
    have hrest := ih (fun x hx => h x (by simp [hx]))
    simp only [List.map_cons, linksFromDoc,
      linkFromJSON_lower useMulti l h1 h2 h3 h4 h5, hrest]

/-- Counterexample to C6 as stated: a document whose link carries the empty
string as its hash parses differently under `Hash` and under `multihash` — the
canonical form fails with `MalformedDocument` (the empty string is falsy, so
the alias chain ends in an absent value and the base-58 decode throws), while
the `multihash` form parses successfully. -/
theorem json_alias_counterexample :
    lowerDoc true ⟨some [], some [emptyHashLink]⟩ =
        ⟨some [], some [emptyMultihashLink]⟩ ∧
      docToNode ⟨some [], some [emptyHashLink]⟩ = .error .MalformedDocument ∧
      docToNode ⟨some [], some [emptyMultihashLink]⟩ =
        .ok (DAGNode.create [] [⟨"", 0, []⟩]) ∧
      docToNode (lowerDoc true ⟨some [], some [emptyHashLink]⟩) ≠
        docToNode ⟨some [], some [emptyHashLink]⟩ := by
  refine ⟨rfl, rfl, rfl, ?_⟩
  intro hc
  have hA : docToNode (lowerDoc true ⟨some [], some [emptyHashLink]⟩) =
      .ok (DAGNode.create [] [⟨"", 0, []⟩]) := rfl
  have hB : docToNode ⟨some [], some [emptyHashLink]⟩ =
      .error .MalformedDocument := rfl
  rw [hA, hB] at hc
  exact Except.noConfusion hc

/-- C6 amended: for every JSON document whose links use only the canonical
field names and whose hash values are not the empty string, moving the hash to
the `hash` or `multihash` alias — and the name and size to their lower-case
aliases — parses to an identical node; with an empty-string hash the canonical
form fails while the `multihash` alias form succeeds. -/
theorem json_alias_parses_identically (doc : JSONDoc) (useMulti : Bool)
    (h : ∀ l ∈ doc.Links.getD [], l.hash = none ∧ l.multihash = none ∧
      l.name = none ∧ l.size = none ∧ l.Hash ≠ some "") :
    docToNode (lowerDoc useMulti doc) = docToNode doc := by
  obtain ⟨d, links⟩ := doc
  cases links with
  | none => rfl
  | some ls =>
    have hl : linksFromDoc (ls.map (lowerLink useMulti)) = linksFromDoc ls :=
      linksFromDoc_lower useMulti ls (by simpa using h)
    simp only [docToNode, lowerDoc, Option.map_some', Option.getD_some, hl]

theorem json_alias_parses_identically_witness :
    (∀ l ∈ aliasDoc.Links.getD [], l.hash = none ∧ l.multihash = none ∧
        l.name = none ∧ l.size = none ∧ l.Hash ≠ some "") ∧
      docToNode (lowerDoc false aliasDoc) = docToNode aliasDoc ∧
      docToNode (lowerDoc true aliasDoc) = docToNode aliasDoc :=
  ⟨by decide,
   json_alias_parses_identically aliasDoc false (by decide),
   json_alias_parses_identically aliasDoc true (by decide)⟩

end IpfsObject
